import Mathlib

/-!
Verification of the Node-RED runtime context registry
(`red/runtime/nodes/context/index.js`).

The JavaScript module is shallowly embedded: JS values are modelled by the
inductive `JSValue` (with explicit `undef`), JS objects used as string-keyed
maps become association lists (`alistGet` / `alistSet` mirror property read
and property assignment, `alistRemove` mirrors `delete obj[k]`), and the
module-level mutable variables (`stores`, `contexts`, `hasConfiguredStore`)
become the fields of an explicit state record `RState` threaded through the
operations.  Backend store instances are identified by allocation numbers
(`Nat`); a `stores` entry whose value is `none` models a property holding
the JS value `undefined`.  Asynchronous completion is modelled by result
inductives: a constructor such as `cbInvoked err v` records that the
user-supplied callback was invoked with arguments `(err, v)`, while `ret v`
records a synchronous return.  Synchronously thrown errors are separate
constructors, keeping the spec's distinction between a synchronous throw
and a rejected asynchronous operation visible in the model.
-/

set_option autoImplicit false

namespace NodeRedContext

/-- A JavaScript value, as far as the context module observes it:
`undefined`, `null`, booleans, (integer) numbers, strings, and opaque
function / object references identified by number. -/
inductive JSValue where
  | undef
  | jsNull
  | bool (b : Bool)
  | num (n : Int)
  | str (s : String)
  | fn (id : Nat)
  | object (id : Nat)
deriving DecidableEq

/-- JS truthiness of a value (`if (x)`). -/
def truthy : JSValue → Bool
  | JSValue.undef => false
  | JSValue.jsNull => false
  | JSValue.bool b => b
  | JSValue.num n => n != 0
  | JSValue.str s => s != ""
  | JSValue.fn _ => true
  | JSValue.object _ => true

/-- `typeof x === "function"`. -/
def isFunction : JSValue → Bool
  | JSValue.fn _ => true
  | _ => false

/-- Coercion of a JS value to a property-key string (only the `str` case is
reachable in this module: the `storage` argument is either a string name or
has already been shifted away as the callback). -/
def jsKeyString : JSValue → String
  | JSValue.str s => s
  | JSValue.undef => "undefined"
  | JSValue.jsNull => "null"
  | JSValue.bool true => "true"
  | JSValue.bool false => "false"
  | JSValue.num n => toString n
  | JSValue.fn _ => "function"
  | JSValue.object _ => "object"

/-- Property read on a string-keyed JS object: `some v` when the key is
present (`hasOwnProperty` true), `none` when absent. -/
def alistGet {α : Type} : List (String × α) → String → Option α
  | [], _ => none
  | (k, v) :: rest, key => if k = key then some v else alistGet rest key

/-- Property assignment `obj[key] = v`: overwrites in place when the key is
present, appends otherwise (JS objects keep insertion order). -/
def alistSet {α : Type} : List (String × α) → String → α → List (String × α)
  | [], key, v => [(key, v)]
  | (k, w) :: rest, key, v =>
      if k = key then (k, v) :: rest else (k, w) :: alistSet rest key v

/-- `delete obj[key]`. -/
def alistRemove {α : Type} : List (String × α) → String → List (String × α)
  | [], _ => []
  | (k, w) :: rest, key =>
      if k = key then alistRemove rest key else (k, w) :: alistRemove rest key

theorem alistGet_set_self {α : Type} (l : List (String × α)) (k : String) (v : α) :
    alistGet (alistSet l k v) k = some v := by
  induction l with
  | nil => simp [alistSet, alistGet]
  | cons hd tl ih =>
      by_cases h : hd.1 = k
      · simp [alistSet, alistGet, h]
      · simp [alistSet, alistGet, h, ih]

theorem alistGet_set_ne {α : Type} (l : List (String × α)) (k k' : String) (v : α)
    (h : k' ≠ k) : alistGet (alistSet l k v) k' = alistGet l k' := by
  have h' : ¬ k = k' := fun hh => h hh.symm
  induction l with
  | nil => simp [alistSet, alistGet, h']
  | cons hd tl ih =>
      by_cases hk : hd.1 = k
      · have hne : ¬ hd.1 = k' := by rw [hk]; exact h'
        simp [alistSet, alistGet, hk, hne, h']
      · simp [alistSet, alistGet, hk, ih]

theorem alistGet_remove_self {α : Type} (l : List (String × α)) (k : String) :
    alistGet (alistRemove l k) k = none := by
  induction l with
  | nil => simp [alistRemove, alistGet]
  | cons hd tl ih =>
      by_cases h : hd.1 = k
      · simp [alistRemove, alistGet, h, ih]
      · simp [alistRemove, alistGet, h, ih]

theorem alistGet_remove_ne {α : Type} (l : List (String × α)) (k k' : String)
    (h : k' ≠ k) : alistGet (alistRemove l k) k' = alistGet l k' := by
  have h' : ¬ k = k' := fun hh => h hh.symm
  induction l with
  | nil => simp [alistRemove, alistGet]
  | cons hd tl ih =>
      by_cases hk : hd.1 = k
      · have hne : ¬ hd.1 = k' := by rw [hk]; exact h'
        simp [alistRemove, alistGet, hk, hne, ih, h']
      · simp [alistRemove, alistGet, hk, ih]

theorem alistGet_filter {α : Type} (l : List (String × α)) (p : String → Bool)
    (k : String) :
    alistGet (l.filter fun e => p e.1) k =
      (if p k then alistGet l k else none) := by
  induction l with
  | nil => simp [alistGet]
  | cons hd tl ih =>
      by_cases hk : hd.1 = k
      · subst hk
        by_cases hp : p hd.1
        · simp [List.filter, hp, alistGet, ih]
        · simp [List.filter, hp, alistGet, ih]
      · by_cases hp : p hd.1
        · simp [List.filter, hp, alistGet, hk, ih]
        · simp [List.filter, hp, alistGet, hk, ih]

/-- A JS `Error` object, as far as callers can observe it here. -/
structure JsError where
  name : String
  message : String
deriving DecidableEq

/-- The `ContextError` built by `getContextStorage` for an unknown storage
name (`context.error-use-undefined-storage`, with `error.name` set). -/
def contextErrorFor (storage : String) : JsError :=
  { name := "ContextError"
    message := "context.error-use-undefined-storage " ++ storage }

/-- The registry's store map: name to instance reference; a `none` value is
a property holding `undefined`. -/
abbrev Stores := List (String × Option Nat)

/-- `getContextStorage(storage)` (source lines 148-161): known name wins,
else fall back to `"default"`, else synchronously throw a `ContextError`.
`Except.error` models the synchronous throw (the function never returns a
rejected promise). -/
def getContextStorage (stores : Stores) (storage : String) :
    Except JsError (Option Nat) :=
  match alistGet stores storage with
  | some v => Except.ok v
  | none =>
      match alistGet stores "default" with
      | some v => Except.ok v
      | none => Except.error (contextErrorFor storage)

/-- What a backend store reports to the facade, per the plugin contract:
the value (`get`) and error (`getErr`) it hands back for a scope/key, and
the key list (`keys`) and error (`keysErr`) for a scope.  Claims quantify
over this behaviour. -/
structure StoreBehavior where
  get : String → String → JSValue
  getErr : String → String → JSValue
  keys : String → List String
  keysErr : String → JSValue

/-- Outcome of the shared storage/callback overload resolution at the head
of `obj.get` / `obj.set` / `obj.keys`. -/
inductive Resolution where
  | store (ref : Option Nat) (cb : JSValue)
  | misuse
  | ctxError (e : JsError)
deriving DecidableEq

/-- The `storage` variable after the shift
`if (typeof storage === 'function') { callback = storage; storage = "default"; }`. -/
def effectiveStorage (storage callback : JSValue) : JSValue :=
  if isFunction storage then JSValue.str "default" else storage

/-- The `callback` variable after the same shift. -/
def effectiveCallback (storage callback : JSValue) : JSValue :=
  if isFunction storage then storage else callback

/-- The overload-resolution block shared (textually repeated) by the three
facade methods (source lines 172-185, 211-223, 227-239): no storage and no
callback selects `stores["_"]`; a function in the storage position is
shifted into the callback with storage name `"default"`; then the callback
is validated (`cbRequired = true` for `get`/`keys`, which check
`typeof callback !== 'function'`; `false` for `set`, which checks
`callback && typeof callback !== 'function'`); finally the named storage is
resolved via `getContextStorage`. -/
def resolveStoreArgs (stores : Stores) (cbRequired : Bool)
    (storage callback : JSValue) : Resolution :=
  if truthy storage = false ∧ truthy callback = false then
    Resolution.store ((alistGet stores "_").getD none) callback
  else
    if (if cbRequired then
          isFunction (effectiveCallback storage callback) = false
        else
          truthy (effectiveCallback storage callback) = true ∧
          isFunction (effectiveCallback storage callback) = false) then
      Resolution.misuse
    else
      match getContextStorage stores (jsKeyString (effectiveStorage storage callback)) with
      | Except.ok v => Resolution.store v (effectiveCallback storage callback)
      | Except.error e => Resolution.ctxError e

/-- Observable outcome of one call to the facade's `get`. -/
inductive FacadeResult where
  | ret (v : JSValue)
  | cbInvoked (err v : JSValue)
  | throwMisuse
  | throwCtx (e : JsError)
  | typeErr
deriving DecidableEq

/-- `seed[key]`: `undefined` when the key is absent. -/
def seedGet (sd : List (String × JSValue)) (k : String) : JSValue :=
  (alistGet sd k).getD JSValue.undef

/-- `obj.get(key, storage, callback)` (source lines 172-209).  `seed` is
`some` exactly for the global context, and carries the contents of the
seed *object* as they stand when the call runs: since `var obj = seed`
(line 167) aliases the Context object to the seed object and
`createContext` then assigns `obj.get`, `obj.set` and `obj.keys` onto it,
the global Context's seed object is `seedObject` applied to the configured
entries — the keys `"get"`, `"set"`, `"keys"` hold the facade's own method
closures (contrast `facadeKeys`, whose `seedKeys` list is captured at
line 170, before those assignments).  In the seeded case an `undefined`
backend report is replaced by `seed[key]`, identically in the callback and
synchronous conventions; without a seed the backend's report is passed
through unchanged.  `typeErr` marks the JS `TypeError` of invoking a
method on an `undefined` store. -/
def facadeGet (stores : Stores) (behav : Nat → StoreBehavior)
    (seed : Option (List (String × JSValue))) (scope key : String)
    (storage callback : JSValue) : FacadeResult :=
  match resolveStoreArgs stores true storage callback with
  | Resolution.misuse => FacadeResult.throwMisuse
  | Resolution.ctxError e => FacadeResult.throwCtx e
  | Resolution.store none _ => FacadeResult.typeErr
  | Resolution.store (some sid) cb =>
      let b := behav sid
      match seed with
      | some sd =>
          if truthy cb then
            let v := b.get scope key
            FacadeResult.cbInvoked (b.getErr scope key)
              (if v = JSValue.undef then seedGet sd key else v)
          else
            let storeValue := b.get scope key
            FacadeResult.ret
              (if storeValue = JSValue.undef then seedGet sd key else storeValue)
      | none =>
          if truthy cb then
            FacadeResult.cbInvoked (b.getErr scope key) (b.get scope key)
          else
            FacadeResult.ret (b.get scope key)

/-- Observable outcome of one call to the facade's `keys`. -/
inductive KeysResult where
  | ret (ks : List String)
  | cbInvoked (err : JSValue) (ks : List String)
  | throwMisuse
  | throwCtx (e : JsError)
  | typeErr
deriving DecidableEq

/-- `Array.from(new Set(l).keys())`: deduplicate keeping first
occurrences, in order. -/
def dedupFirst : List String → List String
  | [] => []
  | x :: xs => x :: dedupFirst (xs.filter fun y => x ≠ y)
termination_by l => l.length
decreasing_by
  simp only [List.length_cons]
  exact Nat.lt_succ_of_le (List.length_filter_le _ _)

/-- `obj.keys(storage, callback)` (source lines 226-252).  With a seed the
result is the seed keys concatenated with the backend keys, deduplicated;
otherwise the backend's key list passes through. -/
def facadeKeys (stores : Stores) (behav : Nat → StoreBehavior)
    (seed : Option (List (String × JSValue))) (scope : String)
    (storage callback : JSValue) : KeysResult :=
  match resolveStoreArgs stores true storage callback with
  | Resolution.misuse => KeysResult.throwMisuse
  | Resolution.ctxError e => KeysResult.throwCtx e
  | Resolution.store none _ => KeysResult.typeErr
  | Resolution.store (some sid) cb =>
      let b := behav sid
      match seed with
      | some sd =>
          if truthy cb then
            KeysResult.cbInvoked (b.keysErr scope)
              (dedupFirst (sd.map Prod.fst ++ b.keys scope))
          else
            KeysResult.ret (dedupFirst (sd.map Prod.fst ++ b.keys scope))
      | none =>
          if truthy cb then
            KeysResult.cbInvoked (b.keysErr scope) (b.keys scope)
          else
            KeysResult.ret (b.keys scope)

/-- Observable outcome of one call to the facade's `set`: `delegated`
records the pure delegation `context.set(scope, key, value, callback)`. -/
inductive SetResult where
  | delegated (sid : Nat) (scope key : String) (value cb : JSValue)
  | throwMisuse
  | throwCtx (e : JsError)
  | typeErr
deriving DecidableEq

/-- `obj.set(key, value, storage, callback)` (source lines 210-225). -/
def facadeSet (stores : Stores) (scope key : String)
    (value storage callback : JSValue) : SetResult :=
  match resolveStoreArgs stores false storage callback with
  | Resolution.misuse => SetResult.throwMisuse
  | Resolution.ctxError e => SetResult.throwCtx e
  | Resolution.store none _ => SetResult.typeErr
  | Resolution.store (some sid) cb => SetResult.delegated sid scope key value cb

theorem mem_dedupFirst (a : String) (l : List String) :
    a ∈ dedupFirst l ↔ a ∈ l := by
  induction l using dedupFirst.induct with
  | case1 => simp [dedupFirst]
  | case2 x xs ih =>
      rw [dedupFirst]
      by_cases hax : a = x
      · simp [hax]
      · simp only [List.mem_cons, ih, List.mem_filter, hax, false_or]
        constructor
        · exact fun hh => hh.1
        · refine fun hh => ⟨hh, ?_⟩
          simp only [ne_eq, decide_not, Bool.not_eq_true', decide_eq_false_iff_not]
          exact fun hhh => hax (Eq.symm hhh)

theorem nodup_dedupFirst (l : List String) : (dedupFirst l).Nodup := by
  induction l using dedupFirst.induct with
  | case1 => simp [dedupFirst]
  | case2 x xs ih =>
      rw [dedupFirst]
      refine List.Nodup.cons ?_ ih
      intro hmem
      rcases (mem_dedupFirst x _).mp hmem with hx
      rcases List.mem_filter.mp hx with ⟨_, hne⟩
      simp at hne

/-!  ## Registry state

The module-level mutable variables of `index.js`, together with two ghost
logs (`created`: every backend instance ever constructed, with its kind;
`opened`: every instance whose `open()` was invoked) and two allocation
counters providing object identity for store instances and Context
handles. -/

/-- How a backend instance came to exist. -/
inductive StoreKind where
  | memoryKind
  | builtinKind (module : String)
  | providedKind (name : String)
deriving DecidableEq

/-- A Context handle (the object built by `createContext`, source lines
164-254).  `seed` records the configured seed entries handed to
`createContext` (for the global Context only); since the returned object
aliases the seed object, the seed object's contents as any later call
observes them are `seedObject` applied to these entries, and the
`get`/`set`/`keys` closures are modelled by `facadeGet`/`facadeSet`/
`facadeKeys` applied accordingly.  `ctxId` is the object's identity;
`flow` and `globalRef` are the back-references (as the identity of the
referenced handle). -/
structure Ctx where
  ctxId : Nat
  scope : String
  seed : Option (List (String × JSValue))
  flow : Option Nat
  globalRef : Option Nat
deriving DecidableEq

/-- The registry's process-wide state. -/
structure RState where
  stores : Stores
  contexts : List (String × Ctx)
  hasConfiguredStore : Bool
  nextStoreId : Nat
  nextCtxId : Nat
  created : List (Nat × StoreKind)
  opened : List Nat
deriving DecidableEq

/-- The `module` property of a configured backend: either a symbolic name
(resolved against the built-in implementations) or an already-constructed
factory, whose invocation may throw (`factoryFails`). -/
inductive ModuleRef where
  | byName (module : String)
  | provided (factoryFails : Bool)
deriving DecidableEq

/-- One entry of `settings.contextStorage`: a string value (an alias
declaration when the key is `"default"`), an object with a `module`
property, or an object without one. -/
inductive PluginValue where
  | strVal (s : String)
  | withModule (ref : ModuleRef)
  | noModule
deriving DecidableEq

/-- The slice of the settings object this module reads.  `none` models an
absent (falsy) property.  `userDir` and the other approved settings copied
by `copySettings` only flow into the config object handed to backend
factories and are not observable in registry state, so they are not
modelled. -/
structure Settings where
  functionGlobalContext : Option (List (String × JSValue))
  contextStorage : Option (List (String × PluginValue))
deriving DecidableEq

/-- Modelled from the spec: the fixed set of built-in backend
implementations that a symbolic `module` name resolves against
(`require("./" + module)`; the backend sources are not part of the sources
verified here).  The baseline in-memory backend is `"memory"`. -/
def builtinModules : List String := ["memory", "localfilesystem"]

/-- `init(_settings)` (source lines 34-40): re-creates `stores` with the
reserved `"_"` entry bound to a fresh builtin in-memory instance and
overwrites `contexts["global"]` with a fresh Context seeded from
`settings.functionGlobalContext || {}`.  Note that it assigns only the
`"global"` key of `contexts` and never touches `hasConfiguredStore`. -/
def initR (s : RState) (settings : Settings) : RState :=
  let s1 : RState := { s with stores := [] }
  let seed := settings.functionGlobalContext.getD []
  let g : Ctx := { ctxId := s1.nextCtxId, scope := "global", seed := some seed,
                   flow := none, globalRef := none }
  let s2 : RState := { s1 with contexts := alistSet s1.contexts "global" g,
                               nextCtxId := s1.nextCtxId + 1 }
  { s2 with stores := alistSet s2.stores "_" (some s2.nextStoreId),
            created := s2.created ++ [(s2.nextStoreId, StoreKind.memoryKind)],
            nextStoreId := s2.nextStoreId + 1 }

/-- The errors `load()` can reject with. -/
inductive LoadError where
  | invalidDefaultModule (storage : String)
  | moduleNotLoaded (module : String)
  | loadingModule (name : String)
  | moduleNotDefined (storage : String)
deriving DecidableEq

/-- Outcome of `load()`: `resolved` models the returned promise resolving
(all scheduled `open()` calls resolving — modelled from the spec for the
builtin backends, whose `open` succeeds); `rejected e` models rejection.
State mutations made before a rejection persist, as in the source. -/
inductive LoadOutcome where
  | resolved
  | rejected (e : LoadError)
deriving DecidableEq

/-- The `for (var pluginName in plugins)` loop of `load()` (source lines
51-99), iterating in insertion order.  `pluginsAll` is the whole
configuration object (alias existence is checked against it), `hasDefault`
is `plugins.hasOwnProperty("default")` computed before the loop.  Returns
the mutated state together with the local variables `defaultName` and
`defaultIsAlias`, or the rejection error with the state as mutated so
far. -/
def loadLoop (pluginsAll : List (String × PluginValue)) (hasDefault : Bool) :
    List (String × PluginValue) → RState → Option String → Bool →
    Except (LoadError × RState) (RState × Option String × Bool)
  | [], s, defaultName, defaultIsAlias => Except.ok (s, defaultName, defaultIsAlias)
  | (pluginName, v) :: rest, s, defaultName, defaultIsAlias =>
    if pluginName = "_" then
      loadLoop pluginsAll hasDefault rest s defaultName defaultIsAlias
    else
      match pluginName, v with
      | "default", PluginValue.strVal target =>
          if (alistGet pluginsAll target).isSome then
            loadLoop pluginsAll hasDefault rest s defaultName true
          else
            Except.error (LoadError.invalidDefaultModule target, s)
      | _, _ =>
          let defaultName :=
            if hasDefault = false ∧ defaultName = none then some pluginName
            else defaultName
          match v with
          | PluginValue.withModule (ModuleRef.byName m) =>
              if m ∈ builtinModules then
                let sid := s.nextStoreId
                loadLoop pluginsAll hasDefault rest
                  { s with stores := alistSet s.stores pluginName (some sid),
                           created := s.created ++ [(sid, StoreKind.builtinKind m)],
                           nextStoreId := sid + 1 }
                  defaultName defaultIsAlias
              else
                Except.error (LoadError.moduleNotLoaded m, s)
          | PluginValue.withModule (ModuleRef.provided fails) =>
              if fails then
                Except.error (LoadError.loadingModule pluginName, s)
              else
                let sid := s.nextStoreId
                loadLoop pluginsAll hasDefault rest
                  { s with stores := alistSet s.stores pluginName (some sid),
                           created := s.created ++ [(sid, StoreKind.providedKind pluginName)],
                           nextStoreId := sid + 1 }
                  defaultName defaultIsAlias
          | _ =>
              Except.error (LoadError.moduleNotDefined pluginName, s)

/-- The fallback at the end of `load()` (source lines 125-130): no promise
was collected, so a fresh builtin in-memory instance becomes `stores["_"]`
and `stores["default"]`, and its `open()` is pushed. -/
def loadFallback (s : RState) : RState × LoadOutcome :=
  let sid := s.nextStoreId
  let st1 := alistSet s.stores "_" (some sid)
  let st2 := alistSet st1 "default" ((alistGet st1 "_").getD none)
  ({ s with stores := st2,
            created := s.created ++ [(sid, StoreKind.memoryKind)],
            nextStoreId := sid + 1,
            opened := s.opened ++ [sid] }, LoadOutcome.resolved)

/-- `load()` (source lines 42-138).  When `settings.contextStorage` is
falsy the loop and the open loop are skipped, so no promise is collected
and the memory fallback runs.  Otherwise the plugin loop runs, every store
registered so far is opened (one promise per `stores` entry), the default
is resolved (explicit `"default"` entry, alias or direct, else the first
configured name), and `hasConfiguredStore` is set exactly when at least
one open promise was collected. -/
def load (s : RState) (settings : Settings) : RState × LoadOutcome :=
  match settings.contextStorage with
  | none => loadFallback s
  | some plugins =>
      let hasDefault := (alistGet plugins "default").isSome
      match loadLoop plugins hasDefault plugins s none false with
      | Except.error (e, s1) => (s1, LoadOutcome.rejected e)
      | Except.ok (s1, defaultName, defaultIsAlias) =>
          let promisesCount := s1.stores.length
          let s2 : RState := { s1 with opened := s1.opened ++ s1.stores.filterMap (·.2) }
          let s3 : RState :=
            if hasDefault then
              let st :=
                if defaultIsAlias then
                  let target :=
                    match alistGet plugins "default" with
                    | some (PluginValue.strVal t) => t
                    | _ => ""
                  alistSet s2.stores "default" ((alistGet s2.stores target).getD none)
                else s2.stores
              { s2 with stores := alistSet st "_" ((alistGet st "default").getD none) }
            else
              match defaultName with
              | some n =>
                  let st := alistSet s2.stores "default" ((alistGet s2.stores n).getD none)
                  { s2 with stores := alistSet st "_" ((alistGet st "default").getD none) }
              | none => s2
          if promisesCount = 0 then loadFallback s3
          else ({ s3 with hasConfiguredStore := true }, LoadOutcome.resolved)

/-- JS truthiness of the `flowId` argument (`undefined` or `""` are
falsy). -/
def flowTruthy : Option String → Bool
  | none => false
  | some f => f != ""

/-- The composite scope id computed by `getContext` (source lines 257-260)
and `deleteContext` (source lines 276-279): plain concatenation with
`":"` when a truthy flow id is supplied. -/
def compositeId (localId : String) (flowId : Option String) : String :=
  if flowTruthy flowId then localId ++ ":" ++ (flowId.getD "") else localId

/-- The recursive call `getContext(flowId)` (no flow id, so no further
recursion): return the cached Context or create, link to global, and
cache one. -/
def getContextFlat (s : RState) (localId : String) : RState × Ctx :=
  match alistGet s.contexts localId with
  | some c => (s, c)
  | none =>
      let c : Ctx := { ctxId := s.nextCtxId, scope := localId, seed := none,
                       flow := none,
                       globalRef := (alistGet s.contexts "global").map Ctx.ctxId }
      ({ s with contexts := alistSet s.contexts localId c,
                nextCtxId := s.nextCtxId + 1 }, c)

/-- `getContext(localId, flowId)` (source lines 256-271): compute the
composite id, return the cached Context if present; otherwise create one
(`createContext(contextId)`, allocated before the flow context), link its
`flow` (resolving the flow Context recursively) when a truthy flow id was
given, link `global`, cache it and return it. -/
def getContext (s : RState) (localId : String) (flowId : Option String) :
    RState × Ctx :=
  let contextId := compositeId localId flowId
  match alistGet s.contexts contextId with
  | some c => (s, c)
  | none =>
      let cid := s.nextCtxId
      let s1 : RState := { s with nextCtxId := cid + 1 }
      let fr : RState × Option Nat :=
        if flowTruthy flowId then
          let r := getContextFlat s1 (flowId.getD "")
          (r.1, some r.2.ctxId)
        else (s1, none)
      let c : Ctx := { ctxId := cid, scope := contextId, seed := none,
                       flow := fr.2,
                       globalRef := (alistGet fr.1.contexts "global").map Ctx.ctxId }
      ({ fr.1 with contexts := alistSet fr.1.contexts contextId c }, c)

/-- Outcome of `deleteContext`: delegation of `stores["_"].delete(contextId)`
(the store reference is `none` when `stores["_"]` is absent or undefined),
or the immediately-resolved no-op promise. -/
inductive DeleteResult where
  | backendDelete (store : Option Nat) (contextId : String)
  | resolvedNoop
deriving DecidableEq

/-- `deleteContext(id, flowId)` (source lines 273-285): with no configured
store, evict the cached Context for the composite id and delegate deletion
to the default (`"_"`) backend; otherwise a no-op resolving immediately. -/
def deleteContext (s : RState) (id : String) (flowId : Option String) :
    RState × DeleteResult :=
  if s.hasConfiguredStore = false then
    let contextId := compositeId id flowId
    ({ s with contexts := alistRemove s.contexts contextId },
     DeleteResult.backendDelete ((alistGet s.stores "_").getD none) contextId)
  else
    (s, DeleteResult.resolvedNoop)

/-- `id.split(":")[0]`: the owning node id of a cached scope id. -/
def splitHead (id : String) : String := (id.splitOn ":").headD ""

/-- Whether `clean` keeps the cache entry `id`: the loop (source lines
294-301) deletes `contexts[id]` exactly when `id !== "global"` and
`flowConfig.allNodes` lacks `id.split(":")[0]`. -/
def cleanKeep (allNodes : List String) (id : String) : Bool :=
  id == "global" || allNodes.contains (splitHead id)

/-- `clean(flowConfig)` (source lines 287-303): invokes every registered
store's `clean(Object.keys(flowConfig.allNodes))` (the second component
lists the store references so invoked — the returned promise is
`Promise.all` over exactly these calls) and evicts the non-global cached
Contexts whose owning node id is not an active node. -/
def cleanR (s : RState) (allNodes : List String) :
    RState × List (Option Nat) :=
  ({ s with contexts := s.contexts.filter fun e => cleanKeep allNodes e.1 },
   s.stores.map (·.2))

/-!  ## Concrete fixtures used to exercise the model -/

/-- A sample global seed (`functionGlobalContext`). -/
def exSeed : List (String × JSValue) := [("a", JSValue.num 1), ("b", JSValue.num 2)]

/-- A sample backend behaviour: key `"x"` holds `7`, everything else is
reported `undefined`; the key list is `["x", "b"]`. -/
def exBehav : Nat → StoreBehavior := fun _ =>
  { get := fun _ k => if k = "x" then JSValue.num 7 else JSValue.undef
    getErr := fun _ _ => JSValue.jsNull
    keys := fun _ => ["x", "b"]
    keysErr := fun _ => JSValue.jsNull }

/-- A sample store map with a default and a named backend. -/
def exStores : Stores := [("_", some 0), ("default", some 0), ("memory", some 1)]

/-- The sample global Context handle. -/
def gCtx : Ctx :=
  { ctxId := 0, scope := "global", seed := some exSeed, flow := none, globalRef := none }

/-- A sample registry state as left by a fresh `init`. -/
def exState : RState :=
  { stores := [("_", some 0)], contexts := [("global", gCtx)],
    hasConfiguredStore := false, nextStoreId := 1, nextCtxId := 1,
    created := [(0, StoreKind.memoryKind)], opened := [] }

/-- Sample settings: a seeded global context, no configured storage. -/
def exSettings : Settings :=
  { functionGlobalContext := some exSeed, contextStorage := none }

/-- A stale non-global Context handle cached before a re-`init`. -/
def staleCtx : Ctx :=
  { ctxId := 7, scope := "n1", seed := none, flow := none, globalRef := some 0 }

/-- A registry state carrying history: a cached non-global Context and a
configured (non-default) store. -/
def staleState : RState :=
  { stores := [("_", some 0), ("db", some 1)],
    contexts := [("global", gCtx), ("n1", staleCtx)],
    hasConfiguredStore := true, nextStoreId := 2, nextCtxId := 8,
    created := [(0, StoreKind.memoryKind), (1, StoreKind.providedKind "db")],
    opened := [0, 1] }

/-!  ## Claim theorems -/

/-- C5: `delete` is a two-way branch on `hasConfiguredStore`: when false it
evicts the cached Context for the composite scope id (leaving every other
cache entry alone) and delegates deletion of that scope to the default
(`"_"`) backend; when true it changes no state and returns an immediately
resolved operation. -/
theorem deleteContext_two_way_branch (s : RState) (id : String)
    (flowId : Option String) :
    (deleteContext s id flowId =
       if s.hasConfiguredStore then (s, DeleteResult.resolvedNoop)
       else ({ s with contexts := alistRemove s.contexts (compositeId id flowId) },
             DeleteResult.backendDelete ((alistGet s.stores "_").getD none)
               (compositeId id flowId)))
    ∧ (∀ other : String,
         alistGet (deleteContext s id flowId).1.contexts other =
           if s.hasConfiguredStore = false ∧ other = compositeId id flowId then none
           else alistGet s.contexts other) := by
  constructor
  · by_cases h : s.hasConfiguredStore
    · simp [deleteContext, h]
    · simp [deleteContext, h]
  · intro other
    by_cases h : s.hasConfiguredStore
    · simp [deleteContext, h]
    · by_cases ho : other = compositeId id flowId
      · simp [deleteContext, h, ho, alistGet_remove_self]
      · simp [deleteContext, h, ho, alistGet_remove_ne _ _ _ ho]

/-- The Boolean keep-condition of `clean`, as a proposition. -/
theorem cleanKeep_iff (nodes : List String) (id : String) :
    cleanKeep nodes id = true ↔ (id = "global" ∨ splitHead id ∈ nodes) := by
  simp [cleanKeep]

/-- C6: `clean(flowConfig)` never evicts the Context cached under
`"global"`; it keeps exactly those other entries whose owning node id (the
part of the scope id before the first `":"`) is an active node, and its
returned operation joins one `clean` call per registered backend. -/
theorem clean_global_kept_filter_exact (s : RState) (nodes : List String) :
    alistGet (cleanR s nodes).1.contexts "global" = alistGet s.contexts "global"
    ∧ (∀ id : String,
        alistGet (cleanR s nodes).1.contexts id =
          if id = "global" ∨ splitHead id ∈ nodes then alistGet s.contexts id
          else none)
    ∧ (cleanR s nodes).2 = s.stores.map (·.2) := by
  have hfilter : ∀ id : String,
      alistGet (cleanR s nodes).1.contexts id =
        if cleanKeep nodes id then alistGet s.contexts id else none := by
    intro id
    simp [cleanR, alistGet_filter]
  refine ⟨?_, ?_, rfl⟩
  · rw [hfilter]
    simp [cleanKeep]
  · intro id
    rw [hfilter]
    by_cases h : id = "global" ∨ splitHead id ∈ nodes
    · rw [if_pos ((cleanKeep_iff nodes id).mpr h), if_pos h]
    · rw [if_neg ?_, if_neg h]
      intro hb
      exact h ((cleanKeep_iff nodes id).mp hb)

/-- C8: `getContextStorage(name)` resolves a known name to its backend,
falls back to the `"default"` backend otherwise, and fails — by a
synchronous throw, modelled as `Except.error`, never as a rejected
operation — exactly when neither is registered, with an error whose `name`
is `"ContextError"` and whose message carries the unknown storage name. -/
theorem getContextStorage_resolution (stores : Stores) (name : String) :
    (getContextStorage stores name =
       (match alistGet stores name, alistGet stores "default" with
        | some v, _ => Except.ok v
        | none, some v => Except.ok v
        | none, none => Except.error (contextErrorFor name)))
    ∧ (getContextStorage stores name = Except.error (contextErrorFor name) ↔
        (alistGet stores name = none ∧ alistGet stores "default" = none))
    ∧ (contextErrorFor name).name = "ContextError" := by
  refine ⟨?_, ?_, rfl⟩
  · unfold getContextStorage
    cases h : alistGet stores name <;> cases h2 : alistGet stores "default" <;> simp
  · unfold getContextStorage
    cases h : alistGet stores name <;> cases h2 : alistGet stores "default" <;>
      simp [contextErrorFor]

/-- When the overload resolution yields `misuse`: some storage or callback
argument was supplied, and the effective callback (after shifting a
function-valued storage) fails the validation that applies
(`cbRequired = true` for `get`/`keys`, `false` for `set`). -/
theorem resolveStoreArgs_misuse_iff (stores : Stores) (cbRequired : Bool)
    (storage callback : JSValue) :
    resolveStoreArgs stores cbRequired storage callback = Resolution.misuse ↔
      ((truthy storage = true ∨ truthy callback = true) ∧
       (if cbRequired then
          isFunction (effectiveCallback storage callback) = false
        else
          truthy (effectiveCallback storage callback) = true ∧
          isFunction (effectiveCallback storage callback) = false)) := by
  unfold resolveStoreArgs
  by_cases h1 : truthy storage = false ∧ truthy callback = false
  · rw [if_pos h1]
    constructor
    · intro hh
      exact absurd hh (by simp)
    · intro hh
      rcases hh.1 with hc | hc <;> simp [hc] at h1
  · rw [if_neg h1]
    have hor : truthy storage = true ∨ truthy callback = true := by
      by_cases hs : truthy storage = true
      · exact Or.inl hs
      · refine Or.inr ?_
        by_cases hc : truthy callback = true
        · exact hc
        · exact absurd ⟨by simpa using hs, by simpa using hc⟩ h1
    by_cases h2 : (if cbRequired then
        isFunction (effectiveCallback storage callback) = false
      else
        truthy (effectiveCallback storage callback) = true ∧
        isFunction (effectiveCallback storage callback) = false)
    · rw [if_pos h2]
      simp [hor, h2]
    · rw [if_neg h2]
      cases hg : getContextStorage stores
          (jsKeyString (effectiveStorage storage callback)) <;>
        simp [hg, h2]

/-- `facadeGet` throws the misuse error exactly when the shared overload
resolution does. -/
theorem facadeGet_misuse (stores : Stores) (behav : Nat → StoreBehavior)
    (sd : Option (List (String × JSValue))) (scope key : String)
    (storage callback : JSValue) :
    facadeGet stores behav sd scope key storage callback = FacadeResult.throwMisuse ↔
      resolveStoreArgs stores true storage callback = Resolution.misuse := by
  unfold facadeGet
  cases h : resolveStoreArgs stores true storage callback with
  | misuse => simp
  | ctxError e => simp
  | store ref cb =>
      cases ref with
      | none => simp
      | some sid =>
          cases sd with
          | none => by_cases hc : truthy cb <;> simp [hc]
          | some l => by_cases hc : truthy cb <;> simp [hc]

/-- `facadeKeys` throws the misuse error exactly when the shared overload
resolution does. -/
theorem facadeKeys_misuse (stores : Stores) (behav : Nat → StoreBehavior)
    (sd : Option (List (String × JSValue))) (scope : String)
    (storage callback : JSValue) :
    facadeKeys stores behav sd scope storage callback = KeysResult.throwMisuse ↔
      resolveStoreArgs stores true storage callback = Resolution.misuse := by
  unfold facadeKeys
  cases h : resolveStoreArgs stores true storage callback with
  | misuse => simp
  | ctxError e => simp
  | store ref cb =>
      cases ref with
      | none => simp
      | some sid =>
          cases sd with
          | none => by_cases hc : truthy cb <;> simp [hc]
          | some l => by_cases hc : truthy cb <;> simp [hc]

/-- `facadeSet` throws the misuse error exactly when the shared overload
resolution (with `set`'s weaker check) does. -/
theorem facadeSet_misuse (stores : Stores) (scope key : String)
    (value storage callback : JSValue) :
    facadeSet stores scope key value storage callback = SetResult.throwMisuse ↔
      resolveStoreArgs stores false storage callback = Resolution.misuse := by
  unfold facadeSet
  cases h : resolveStoreArgs stores false storage callback with
  | misuse => simp
  | ctxError e => simp
  | store ref cb => cases ref <;> simp

/-- C2 (amended): the facade's synchronous misuse error is thrown, for
`get` and `keys`, exactly when some storage or callback argument is
supplied and the effective callback — the storage argument itself when it
is a function, the callback argument otherwise — is not a function (so a
call naming a storage backend with no callback at all throws too); for
`set`, exactly when a truthy non-function callback survives the shift,
so a named storage with no callback proceeds. -/
theorem misuse_error_characterization (stores : Stores)
    (behav : Nat → StoreBehavior) (sd : Option (List (String × JSValue)))
    (scope key : String) (value storage callback : JSValue) :
    (facadeGet stores behav sd scope key storage callback =
        FacadeResult.throwMisuse ↔
      (truthy storage = true ∨ truthy callback = true) ∧
      isFunction (effectiveCallback storage callback) = false)
    ∧ (facadeKeys stores behav sd scope storage callback =
        KeysResult.throwMisuse ↔
      (truthy storage = true ∨ truthy callback = true) ∧
      isFunction (effectiveCallback storage callback) = false)
    ∧ (facadeSet stores scope key value storage callback =
        SetResult.throwMisuse ↔
      (truthy storage = true ∨ truthy callback = true) ∧
      isFunction storage = false ∧
      truthy callback = true ∧ isFunction callback = false) := by
  refine ⟨?_, ?_, ?_⟩
  · rw [facadeGet_misuse, resolveStoreArgs_misuse_iff]
    simp
  · rw [facadeKeys_misuse, resolveStoreArgs_misuse_iff]
    simp
  · rw [facadeSet_misuse, resolveStoreArgs_misuse_iff]
    by_cases hf : isFunction storage
    · simp [effectiveCallback, hf]
    · simp [effectiveCallback, hf]

/-- C2 (counterexample): on the global-free scope `"n1"`, calling
`get("k", "memory")` — a registered storage name, no callback — throws the
misuse error instead of proceeding in the synchronous-return
convention. -/
theorem named_storage_without_callback_throws :
    facadeGet exStores exBehav none "n1" "k" (JSValue.str "memory") JSValue.undef =
      FacadeResult.throwMisuse := by
  rfl

/-- C3 (counterexample): re-running `init` on a state that carries a
cached non-global Context and a configured store leaves the stale Context
cached and `hasConfiguredStore` still true — `init` does not reset all
registry state. -/
theorem init_keeps_stale_state :
    alistGet (initR staleState exSettings).contexts "n1" = some staleCtx ∧
    (initR staleState exSettings).hasConfiguredStore = true := by
  exact ⟨rfl, rfl⟩

/-- C3 (amended): `init(settings)` resets the store map to exactly the
reserved `"_"` entry bound to a freshly constructed builtin in-memory
backend and overwrites the cached global Context with a fresh one seeded
from the configured initial-values map; but previously cached non-global
Contexts and the `hasConfiguredStore` flag survive the call unchanged. -/
theorem init_reset_behavior (s : RState) (st : Settings) :
    (initR s st).stores = [("_", some s.nextStoreId)]
    ∧ (initR s st).created = s.created ++ [(s.nextStoreId, StoreKind.memoryKind)]
    ∧ (initR s st).hasConfiguredStore = s.hasConfiguredStore
    ∧ (∀ id : String,
        alistGet (initR s st).contexts id =
          if id = "global" then
            some { ctxId := s.nextCtxId, scope := "global",
                   seed := some (st.functionGlobalContext.getD []),
                   flow := none, globalRef := none }
          else alistGet s.contexts id) := by
  refine ⟨rfl, rfl, rfl, ?_⟩
  intro id
  by_cases h : id = "global"
  · subst h
    simp [initR, alistGet_set_self]
  · simp [initR, h, alistGet_set_ne _ _ _ _ h]

/-- The contents of the global Context's seed object from the moment
`createContext(id, seed)` returns (source lines 164-254): `var obj = seed`
aliases the returned object to the seed object itself, and the assignments
`obj.get = ...` (line 172), `obj.set = ...` (line 210) and
`obj.keys = ...` (line 226) therefore attach the facade's method closures
onto the configured entries, overwriting in place any configured value
under those three keys.  `gid`, `mid`, `kid` are the identities of the
three closures (only their being function values is ever observable). -/
def seedObject (sd : List (String × JSValue)) (gid mid kid : Nat) :
    List (String × JSValue) :=
  alistSet (alistSet (alistSet sd "get" (JSValue.fn gid)) "set" (JSValue.fn mid))
    "keys" (JSValue.fn kid)

theorem seedGet_seedObject_other (sd : List (String × JSValue))
    (gid mid kid : Nat) (key : String)
    (hg : key ≠ "get") (hs : key ≠ "set") (hk : key ≠ "keys") :
    seedGet (seedObject sd gid mid kid) key = seedGet sd key := by
  unfold seedGet seedObject
  rw [alistGet_set_ne _ _ _ _ hk, alistGet_set_ne _ _ _ _ hs,
      alistGet_set_ne _ _ _ _ hg]

theorem seedGet_seedObject_getKey (sd : List (String × JSValue))
    (gid mid kid : Nat) :
    seedGet (seedObject sd gid mid kid) "get" = JSValue.fn gid := by
  unfold seedGet seedObject
  rw [alistGet_set_ne _ _ _ _ (by decide), alistGet_set_ne _ _ _ _ (by decide),
      alistGet_set_self]
  rfl

theorem seedGet_seedObject_setKey (sd : List (String × JSValue))
    (gid mid kid : Nat) :
    seedGet (seedObject sd gid mid kid) "set" = JSValue.fn mid := by
  unfold seedGet seedObject
  rw [alistGet_set_ne _ _ _ _ (by decide), alistGet_set_self]
  rfl

theorem seedGet_seedObject_keysKey (sd : List (String × JSValue))
    (gid mid kid : Nat) :
    seedGet (seedObject sd gid mid kid) "keys" = JSValue.fn kid := by
  unfold seedGet seedObject
  rw [alistGet_set_self]
  rfl

/-- C1 (counterexample): on the global Context (seeded with `exSeed`,
which configures no value for `"get"`), `get("get")` in the
synchronous-return convention, with the backend reporting `undefined`,
returns the facade's own `get` method closure — a function value — and
not the seed value for `"get"` sourced from configuration (which is
`undefined`): the Context object aliases the seed object, so
`createContext`'s method assignments are visible through `seed[key]`. -/
theorem global_get_method_key_counterexample :
    facadeGet exStores exBehav (some (seedObject exSeed 10 11 12)) "global" "get"
        JSValue.undef JSValue.undef = FacadeResult.ret (JSValue.fn 10)
    ∧ (exBehav 0).get "global" "get" = JSValue.undef
    ∧ seedGet exSeed "get" = JSValue.undef
    ∧ JSValue.fn 10 ≠ JSValue.undef :=
  ⟨rfl, rfl, rfl, by decide⟩

/-- C1 (amended): Context `get`.  On the global Context the seed object
carries the facade's own `get`/`set`/`keys` method closures (the Context
object aliases the seed object), so: for every key other than `"get"`,
`"set"` and `"keys"`, in the synchronous-return convention (no storage,
no callback) and in the callback convention (callback in the storage
position, resolved through `"default"`), the result is the configured
seed value for the key exactly when the backend reports `undefined`, and
the backend's value whenever it reports a defined one; at the three
method keys a backend report of `undefined` yields the corresponding
attached method closure instead.  On a Context without a seed the
backend's report passes through unchanged in both conventions. -/
theorem global_get_seed_merging (stores : Stores) (behav : Nat → StoreBehavior)
    (sd : List (String × JSValue)) (scope key : String)
    (sid did fid gid mid kid : Nat)
    (h1 : alistGet stores "_" = some (some sid))
    (h2 : getContextStorage stores "default" = Except.ok (some did))
    (hk : key ≠ "get" ∧ key ≠ "set" ∧ key ≠ "keys") :
    (facadeGet stores behav (some (seedObject sd gid mid kid)) "global" key
        JSValue.undef JSValue.undef =
       FacadeResult.ret
         (if (behav sid).get "global" key = JSValue.undef then seedGet sd key
          else (behav sid).get "global" key))
    ∧ (facadeGet stores behav (some (seedObject sd gid mid kid)) "global" key
        (JSValue.fn fid) JSValue.undef =
       FacadeResult.cbInvoked ((behav did).getErr "global" key)
         (if (behav did).get "global" key = JSValue.undef then seedGet sd key
          else (behav did).get "global" key))
    ∧ (facadeGet stores behav none scope key JSValue.undef JSValue.undef =
       FacadeResult.ret ((behav sid).get scope key))
    ∧ (facadeGet stores behav none scope key (JSValue.fn fid) JSValue.undef =
       FacadeResult.cbInvoked ((behav did).getErr scope key)
         ((behav did).get scope key))
    ∧ (facadeGet stores behav (some (seedObject sd gid mid kid)) "global" "get"
        JSValue.undef JSValue.undef =
       FacadeResult.ret
         (if (behav sid).get "global" "get" = JSValue.undef then JSValue.fn gid
          else (behav sid).get "global" "get"))
    ∧ (facadeGet stores behav (some (seedObject sd gid mid kid)) "global" "set"
        JSValue.undef JSValue.undef =
       FacadeResult.ret
         (if (behav sid).get "global" "set" = JSValue.undef then JSValue.fn mid
          else (behav sid).get "global" "set"))
    ∧ (facadeGet stores behav (some (seedObject sd gid mid kid)) "global" "keys"
        JSValue.undef JSValue.undef =
       FacadeResult.ret
         (if (behav sid).get "global" "keys" = JSValue.undef then JSValue.fn kid
          else (behav sid).get "global" "keys")) := by
  have hr1 : resolveStoreArgs stores true JSValue.undef JSValue.undef =
      Resolution.store (some sid) JSValue.undef := by
    simp [resolveStoreArgs, truthy, h1]
  have hr2 : resolveStoreArgs stores true (JSValue.fn fid) JSValue.undef =
      Resolution.store (some did) (JSValue.fn fid) := by
    simp [resolveStoreArgs, truthy, isFunction, effectiveCallback,
          effectiveStorage, jsKeyString, h2]
  have hso := seedGet_seedObject_other sd gid mid kid key hk.1 hk.2.1 hk.2.2
  refine ⟨?_, ?_, ?_, ?_, ?_, ?_, ?_⟩
  · simp [facadeGet, hr1, truthy, hso]
  · simp [facadeGet, hr2, truthy, hso]
  · simp [facadeGet, hr1, truthy]
  · simp [facadeGet, hr2, truthy]
  · simp [facadeGet, hr1, truthy, seedGet_seedObject_getKey]
  · simp [facadeGet, hr1, truthy, seedGet_seedObject_setKey]
  · simp [facadeGet, hr1, truthy, seedGet_seedObject_keysKey]

/-- C1 witness: the amended theorem applied to the sample registry at the
configured key `"a"`. -/
theorem global_get_seed_merging_witness :
    alistGet exStores "_" = some (some 0)
    ∧ getContextStorage exStores "default" = Except.ok (some 0)
    ∧ (("a" : String) ≠ "get" ∧ ("a" : String) ≠ "set" ∧ ("a" : String) ≠ "keys")
    ∧ ((facadeGet exStores exBehav (some (seedObject exSeed 10 11 12)) "global" "a"
          JSValue.undef JSValue.undef =
         FacadeResult.ret
           (if (exBehav 0).get "global" "a" = JSValue.undef then seedGet exSeed "a"
            else (exBehav 0).get "global" "a"))
       ∧ (facadeGet exStores exBehav (some (seedObject exSeed 10 11 12)) "global" "a"
          (JSValue.fn 5) JSValue.undef =
         FacadeResult.cbInvoked ((exBehav 0).getErr "global" "a")
           (if (exBehav 0).get "global" "a" = JSValue.undef then seedGet exSeed "a"
            else (exBehav 0).get "global" "a"))
       ∧ (facadeGet exStores exBehav none "n1" "a" JSValue.undef JSValue.undef =
         FacadeResult.ret ((exBehav 0).get "n1" "a"))
       ∧ (facadeGet exStores exBehav none "n1" "a" (JSValue.fn 5) JSValue.undef =
         FacadeResult.cbInvoked ((exBehav 0).getErr "n1" "a")
           ((exBehav 0).get "n1" "a"))
       ∧ (facadeGet exStores exBehav (some (seedObject exSeed 10 11 12)) "global" "get"
          JSValue.undef JSValue.undef =
         FacadeResult.ret
           (if (exBehav 0).get "global" "get" = JSValue.undef then JSValue.fn 10
            else (exBehav 0).get "global" "get"))
       ∧ (facadeGet exStores exBehav (some (seedObject exSeed 10 11 12)) "global" "set"
          JSValue.undef JSValue.undef =
         FacadeResult.ret
           (if (exBehav 0).get "global" "set" = JSValue.undef then JSValue.fn 11
            else (exBehav 0).get "global" "set"))
       ∧ (facadeGet exStores exBehav (some (seedObject exSeed 10 11 12)) "global" "keys"
          JSValue.undef JSValue.undef =
         FacadeResult.ret
           (if (exBehav 0).get "global" "keys" = JSValue.undef then JSValue.fn 12
            else (exBehav 0).get "global" "keys"))) :=
  ⟨rfl, rfl, ⟨by decide, by decide, by decide⟩,
   global_get_seed_merging exStores exBehav exSeed "n1" "a" 0 0 5 10 11 12 rfl rfl
     ⟨by decide, by decide, by decide⟩⟩

/-- C9: Context `keys` on the seeded (global) Context returns, in both
calling conventions, the seed keys followed by the backend-reported keys
with duplicates removed; the result has the same elements as the union,
contains every seed key, and has no duplicates. -/
theorem global_keys_seed_union (stores : Stores) (behav : Nat → StoreBehavior)
    (sd : List (String × JSValue)) (sid did fid : Nat)
    (h1 : alistGet stores "_" = some (some sid))
    (h2 : getContextStorage stores "default" = Except.ok (some did)) :
    (facadeKeys stores behav (some sd) "global" JSValue.undef JSValue.undef =
       KeysResult.ret (dedupFirst (sd.map Prod.fst ++ (behav sid).keys "global")))
    ∧ (facadeKeys stores behav (some sd) "global" (JSValue.fn fid) JSValue.undef =
       KeysResult.cbInvoked ((behav did).keysErr "global")
         (dedupFirst (sd.map Prod.fst ++ (behav did).keys "global")))
    ∧ (dedupFirst (sd.map Prod.fst ++ (behav sid).keys "global")).toFinset =
        (sd.map Prod.fst ++ (behav sid).keys "global").toFinset
    ∧ sd.map Prod.fst ⊆ dedupFirst (sd.map Prod.fst ++ (behav sid).keys "global")
    ∧ (dedupFirst (sd.map Prod.fst ++ (behav sid).keys "global")).Nodup := by
  have hr1 : resolveStoreArgs stores true JSValue.undef JSValue.undef =
      Resolution.store (some sid) JSValue.undef := by
    simp [resolveStoreArgs, truthy, h1]
  have hr2 : resolveStoreArgs stores true (JSValue.fn fid) JSValue.undef =
      Resolution.store (some did) (JSValue.fn fid) := by
    simp [resolveStoreArgs, truthy, isFunction, effectiveCallback,
          effectiveStorage, jsKeyString, h2]
  refine ⟨?_, ?_, ?_, ?_, ?_⟩
  · simp [facadeKeys, hr1, truthy]
  · simp [facadeKeys, hr2, truthy]
  · ext k
    simp [mem_dedupFirst]
  · intro k hk
    exact (mem_dedupFirst k _).mpr (List.mem_append_left _ hk)
  · exact nodup_dedupFirst _

/-- C9 witness: the theorem applied to the sample registry. -/
theorem global_keys_seed_union_witness :
    alistGet exStores "_" = some (some 0)
    ∧ getContextStorage exStores "default" = Except.ok (some 0)
    ∧ ((facadeKeys exStores exBehav (some exSeed) "global" JSValue.undef JSValue.undef =
         KeysResult.ret (dedupFirst (exSeed.map Prod.fst ++ (exBehav 0).keys "global")))
       ∧ (facadeKeys exStores exBehav (some exSeed) "global" (JSValue.fn 5) JSValue.undef =
         KeysResult.cbInvoked ((exBehav 0).keysErr "global")
           (dedupFirst (exSeed.map Prod.fst ++ (exBehav 0).keys "global")))
       ∧ (dedupFirst (exSeed.map Prod.fst ++ (exBehav 0).keys "global")).toFinset =
           (exSeed.map Prod.fst ++ (exBehav 0).keys "global").toFinset
       ∧ exSeed.map Prod.fst ⊆ dedupFirst (exSeed.map Prod.fst ++ (exBehav 0).keys "global")
       ∧ (dedupFirst (exSeed.map Prod.fst ++ (exBehav 0).keys "global")).Nodup) :=
  ⟨rfl, rfl, global_keys_seed_union exStores exBehav exSeed 0 0 5 rfl rfl⟩

/-- C4: with no backend configuration supplied (`settings.contextStorage`
absent), `load()` resolves; exactly one backend — a fresh builtin
in-memory instance — is constructed, registered as both `"_"` and
`"default"` (the same instance), its `open()` is invoked, and
`hasConfiguredStore` remains false. -/
theorem load_no_config_memory_default (s : RState) (st : Settings)
    (hcs : st.contextStorage = none)
    (hconf : s.hasConfiguredStore = false) :
    (load s st).2 = LoadOutcome.resolved
    ∧ (load s st).1.created = s.created ++ [(s.nextStoreId, StoreKind.memoryKind)]
    ∧ alistGet (load s st).1.stores "_" = some (some s.nextStoreId)
    ∧ alistGet (load s st).1.stores "default" = some (some s.nextStoreId)
    ∧ (load s st).1.opened = s.opened ++ [s.nextStoreId]
    ∧ (load s st).1.hasConfiguredStore = false := by
  have hl : load s st = loadFallback s := by
    unfold load
    rw [hcs]
  rw [hl]
  have hget : alistGet (alistSet s.stores "_" (some s.nextStoreId)) "_" =
      some (some s.nextStoreId) := alistGet_set_self _ _ _
  refine ⟨rfl, rfl, ?_, ?_, rfl, hconf⟩
  · show alistGet
        (alistSet (alistSet s.stores "_" (some s.nextStoreId)) "default"
          ((alistGet (alistSet s.stores "_" (some s.nextStoreId)) "_").getD none))
        "_" = some (some s.nextStoreId)
    rw [alistGet_set_ne _ _ _ _ (by decide), hget]
  · show alistGet
        (alistSet (alistSet s.stores "_" (some s.nextStoreId)) "default"
          ((alistGet (alistSet s.stores "_" (some s.nextStoreId)) "_").getD none))
        "default" = some (some s.nextStoreId)
    rw [alistGet_set_self, hget]
    rfl

/-- C4 witness: the theorem applied to the freshly initialized sample
state with storage-free settings. -/
theorem load_no_config_memory_default_witness :
    exSettings.contextStorage = none
    ∧ exState.hasConfiguredStore = false
    ∧ ((load exState exSettings).2 = LoadOutcome.resolved
       ∧ (load exState exSettings).1.created =
           exState.created ++ [(exState.nextStoreId, StoreKind.memoryKind)]
       ∧ alistGet (load exState exSettings).1.stores "_" =
           some (some exState.nextStoreId)
       ∧ alistGet (load exState exSettings).1.stores "default" =
           some (some exState.nextStoreId)
       ∧ (load exState exSettings).1.opened = exState.opened ++ [exState.nextStoreId]
       ∧ (load exState exSettings).1.hasConfiguredStore = false) :=
  ⟨rfl, rfl, load_no_config_memory_default exState exSettings rfl rfl⟩

/-- A configuration whose `"default"` entry aliases an undefined name,
preceded (in insertion order) by a well-formed factory-backed entry. -/
def exFactoryCfg : List (String × PluginValue) :=
  [("a", PluginValue.withModule (ModuleRef.provided false)),
   ("default", PluginValue.strVal "missing")]

/-- Settings carrying `exFactoryCfg` as `contextStorage`. -/
def exSettingsBadDefault : Settings :=
  { functionGlobalContext := none, contextStorage := some exFactoryCfg }

/-- C7: with configuration `{a: {module: <factory>}, default: "missing"}`,
`load()` does reject with the invalid-default error, but only after the
factory for entry `"a"` has already been invoked and its backend
registered — the alias check runs when the loop reaches the `"default"`
key, not before instantiation starts. -/
theorem load_invalid_default_rejects_after_instantiation :
    (load exState exSettingsBadDefault).2 =
      LoadOutcome.rejected (LoadError.invalidDefaultModule "missing")
    ∧ (load exState exSettingsBadDefault).1.created =
        exState.created ++ [(exState.nextStoreId, StoreKind.providedKind "a")] :=
  ⟨rfl, rfl⟩

/-- Every call of `getContext` leaves the Context it returns cached under
the composite id it computed. -/
theorem getContext_caches (s : RState) (a : String) (f : Option String) :
    alistGet (getContext s a f).1.contexts (compositeId a f) =
      some (getContext s a f).2 := by
  unfold getContext
  cases h : alistGet s.contexts (compositeId a f) with
  | some c => simp [h]
  | none => simp [h, alistGet_set_self]

/-- C10 (counterexample): with the empty string as flow id — a string, but
falsy in JS — `get("n1", "")` resolves scope id `"n1"` while
`get("n1" + ":" + "")` resolves scope id `"n1:"`, and the two sequential
calls return different Context objects. -/
theorem empty_flow_id_scope_counterexample :
    (getContext (getContext exState "n1" (some "")).1 ("n1" ++ ":" ++ "") none).2 ≠
      (getContext exState "n1" (some "")).2 := by
  decide

/-- C10 (amended): for every non-empty flow id `b`, `get(a, b)` and a
following `get(a + ":" + b)` compute the same composite scope id by plain
string concatenation, so the second call hits the cache and returns the
identical Context object with no further state change. -/
theorem getContext_concat_composite_id (s : RState) (a b : String)
    (hb : b ≠ "") :
    getContext (getContext s a (some b)).1 (a ++ ":" ++ b) none =
      getContext s a (some b) := by
  have hcid : compositeId a (some b) = a ++ ":" ++ b := by
    simp [compositeId, flowTruthy, hb]
  have hcache := getContext_caches s a (some b)
  rw [hcid] at hcache
  generalize hgen : getContext s a (some b) = p at *
  unfold getContext
  simp [compositeId, flowTruthy, hcache]

/-- C10 witness: the amended theorem at a concrete non-empty flow id. -/
theorem getContext_concat_composite_id_witness :
    ("f1" : String) ≠ ""
    ∧ getContext (getContext exState "n1" (some "f1")).1 ("n1" ++ ":" ++ "f1") none =
        getContext exState "n1" (some "f1") :=
  ⟨by decide, getContext_concat_composite_id exState "n1" "f1" (by decide)⟩

end NodeRedContext
